import Mathlib

/-
Verification of the trello-to-clubhouse migration pipeline.

The Go sources are shallowly embedded as executable Lean definitions:
  - the Card Normalizer (trello.go): getCommentsAndCardCreator,
    getCheckListsForCard, getLabelsFlattenFromCard, parseDateOrReturnNil
  - the Attachment Relocator (trello.go): safeFileNameRegexp sanitization,
    downloadCardAttachmentsUploadToDropbox, getSharedLinks, createShareLink
  - the Import Orchestrator (import.go): ImportCardsIntoClubhouse,
    deleteMatchingStories, buildClubhouseStory, mapOwnersFromTrelloCard,
    buildComments, buildTasks, buildLabels, buildLinkFiles.

Remote collaborators (the Trello API, the Dropbox API and the Clubhouse API)
are modeled as explicit data: fetched Trello data appears as fields of the
embedded TrelloCard, the Dropbox sharing API as a DropboxEnv record of
response functions, and the Clubhouse server as an explicit ChState threaded
through the orchestrator.  Go nil-pointer dereferences (a crash of the whole
process) are modeled with the Except GoPanic monad; Go pointer types that can
be nil become Option.
-/

namespace TrelloClubhouse

/-- A Go runtime panic that aborts the process.  The only panic reachable in
the embedded code is a nil pointer dereference. -/
inductive GoPanic where
  | nilPointerDereference
deriving DecidableEq, Repr

/-- Calendar timestamp as produced by parsing the Trello wire format
with the Go layout string 2006-01-02T15:04:05.000Z (UTC, millisecond
precision).  Plays the role of time.Time in the embedding. -/
structure GoTime where
  year : Nat
  month : Nat
  day : Nat
  hour : Nat
  minute : Nat
  second : Nat
  millis : Nat
deriving DecidableEq, Repr

/-- Zero value used only as the irrelevant default of Option.getD in
statements whose hypotheses rule the none case out. -/
def goTimeZero : GoTime := ⟨0, 0, 0, 0, 0, 0, 0⟩

/-- ASCII digit test, as used by the fixed-width numeric fields of the Go
time layout. -/
def isDigitChar (c : Char) : Bool := 48 ≤ c.toNat && c.toNat ≤ 57

/-- Numeric value of an ASCII digit. -/
def digitVal (c : Char) : Nat := c.toNat - 48

/-- Leap year rule of the proleptic Gregorian calendar, as in the Go time
package. -/
def isLeap (y : Nat) : Bool := y % 4 == 0 && (y % 100 != 0 || y % 400 == 0)

/-- Number of days in a month, as in the Go time package (used by
time.Parse to validate the day field). -/
def daysIn (month year : Nat) : Nat :=
  if month == 2 then (if isLeap year then 29 else 28)
  else if month == 4 || month == 6 || month == 9 || month == 11 then 30
  else 31

/-- Fractional-second reading of the Go parser for the layout token .000
(parseNanoseconds): the separator byte may be a period or, since Go 1.17, a
comma; the following three bytes go through atoi, which tolerates one
leading sign, so three digits are read as they stand, a plus sign followed
by two digits is also accepted, and a minus sign yields a negative value
that the range check then rejects. -/
def parseFrac (s6 f1 f2 f3 : Char) : Option Nat :=
  if s6 == '.' || s6 == ',' then
    if isDigitChar f1 && isDigitChar f2 && isDigitChar f3 then
      some (100 * digitVal f1 + 10 * digitVal f2 + digitVal f3)
    else if f1 == '+' && isDigitChar f2 && isDigitChar f3 then
      some (10 * digitVal f2 + digitVal f3)
    else
      none
  else
    none

/-- Common tail of the Go parse of the layout 2006-01-02T15:04:05.000Z
once the hour digits are in hand: four year digits, the literal separators,
month, day, minute and second read by getnum in fixed two-digit mode, the
fractional second, the literal Z, and the range checks the Go parser
performs (hour below 24, minute and second below 60 during the scan; month
in 1..12 and day in 1..daysIn validated after it). -/
def parseDateFields (y1 y2 y3 y4 s1 mo1 mo2 s2 d1 d2 s3 : Char) (hour : Nat)
    (s4 mi1 mi2 s5 se1 se2 s6 f1 f2 f3 s7 : Char) : Option GoTime :=
  if isDigitChar y1 && isDigitChar y2 && isDigitChar y3 && isDigitChar y4 &&
     s1 == '-' && isDigitChar mo1 && isDigitChar mo2 &&
     s2 == '-' && isDigitChar d1 && isDigitChar d2 &&
     s3 == 'T' && s4 == ':' && isDigitChar mi1 && isDigitChar mi2 &&
     s5 == ':' && isDigitChar se1 && isDigitChar se2 && s7 == 'Z' then
    match parseFrac s6 f1 f2 f3 with
    | none => none
    | some millis =>
      if hour ≤ 23 ∧ 10 * digitVal mi1 + digitVal mi2 ≤ 59 ∧
         10 * digitVal se1 + digitVal se2 ≤ 59 ∧
         1 ≤ 10 * digitVal mo1 + digitVal mo2 ∧ 10 * digitVal mo1 + digitVal mo2 ≤ 12 ∧
         1 ≤ 10 * digitVal d1 + digitVal d2 ∧
         10 * digitVal d1 + digitVal d2 ≤
           daysIn (10 * digitVal mo1 + digitVal mo2)
             (1000 * digitVal y1 + 100 * digitVal y2 + 10 * digitVal y3 + digitVal y4) then
        some ⟨1000 * digitVal y1 + 100 * digitVal y2 + 10 * digitVal y3 + digitVal y4,
              10 * digitVal mo1 + digitVal mo2,
              10 * digitVal d1 + digitVal d2,
              hour,
              10 * digitVal mi1 + digitVal mi2,
              10 * digitVal se1 + digitVal se2,
              millis⟩
      else
        none
  else
    none

/-- Embedding of parseDateOrReturnNil (trello.go): time.Parse with the
fixed layout 2006-01-02T15:04:05.000Z; every parse failure returns nil,
embedded as none, and no error is ever propagated (the Go function turns
the error into a nil pointer).  The hour token 15 is read by getnum in
non-fixed mode: it takes two digits when the first two characters are both
digits (greedily, whatever follows them) and one digit otherwise, so a
successful input is 24 characters long with a two-digit hour or 23
characters long with a one-digit hour followed by a non-digit; any other
byte count makes the Go scan run out of input or leave extra text, hence
the two list shapes below. -/
def parseDateOrReturnNil (strDate : String) : Option GoTime :=
  match strDate.data with
  | [y1, y2, y3, y4, s1, mo1, mo2, s2, d1, d2, s3, h1, h2, s4, mi1, mi2, s5,
     se1, se2, s6, f1, f2, f3, s7] =>
    if isDigitChar h1 && isDigitChar h2 then
      parseDateFields y1 y2 y3 y4 s1 mo1 mo2 s2 d1 d2 s3
        (10 * digitVal h1 + digitVal h2) s4 mi1 mi2 s5 se1 se2 s6 f1 f2 f3 s7
    else none
  | [y1, y2, y3, y4, s1, mo1, mo2, s2, d1, d2, s3, h1, s4, mi1, mi2, s5,
     se1, se2, s6, f1, f2, f3, s7] =>
    if isDigitChar h1 && !isDigitChar s4 then
      parseDateFields y1 y2 y3 y4 s1 mo1 mo2 s2 d1 d2 s3
        (digitVal h1) s4 mi1 mi2 s5 se1 se2 s6 f1 f2 f3 s7
    else none
  | _ => none

/-- Two-digit zero-padded rendering, for the layout fields 01 02 15 04 05. -/
def pad2 (n : Nat) : List Char :=
  [Char.ofNat (48 + n / 10), Char.ofNat (48 + n % 10)]

/-- Three-digit zero-padded rendering, for the fractional-seconds field. -/
def pad3 (n : Nat) : List Char :=
  [Char.ofNat (48 + n / 100), Char.ofNat (48 + n / 10 % 10), Char.ofNat (48 + n % 10)]

/-- Four-digit zero-padded rendering, for the year field. -/
def pad4 (n : Nat) : List Char :=
  [Char.ofNat (48 + n / 1000), Char.ofNat (48 + n / 100 % 10),
   Char.ofNat (48 + n / 10 % 10), Char.ofNat (48 + n % 10)]

/-- Rendering of a timestamp back through the fixed layout
2006-01-02T15:04:05.000Z, the inverse direction of parseDateOrReturnNil. -/
def formatDateLayout (t : GoTime) : String :=
  ⟨pad4 t.year ++ '-' :: pad2 t.month ++ '-' :: pad2 t.day ++
   'T' :: pad2 t.hour ++ ':' :: pad2 t.minute ++ ':' :: pad2 t.second ++
   '.' :: pad3 t.millis ++ ['Z']⟩

/-- Character class of the Go regular expression [^a-zA-Z0-9_.]: a character
is safe when it is a letter, a digit, an underscore or a period. -/
def isSafeFileChar (c : Char) : Bool :=
  ( 'a' ≤ c && c ≤ 'z') || ( 'A' ≤ c && c ≤ 'Z') || ( '0' ≤ c && c ≤ '9') ||
  c == '_' || c == '.'

/-- Auxiliary bound used to justify termination of the sanitizer. -/
theorem length_dropWhile_le (p : Char → Bool) :
    ∀ l : List Char, (l.dropWhile p).length ≤ l.length := by
  intro l
  induction l with
  | nil => simp [List.dropWhile]
  | cons a as ih =>
    by_cases h : p a
    · simp [List.dropWhile, h]
      omega
    · simp [List.dropWhile, h]

/-- Embedding of safeFileNameRegexp.ReplaceAllString(name, "_") (trello.go):
the regular expression [^a-zA-Z0-9_.]+ matches exactly the maximal runs of
unsafe characters, and ReplaceAllString replaces each such run with a single
underscore. -/
def sanitizeChars : List Char → List Char
  | [] => []
  | c :: cs =>
    if isSafeFileChar c then c :: sanitizeChars cs
    else '_' :: sanitizeChars (cs.dropWhile (fun d => !isSafeFileChar d))
termination_by l => l.length
decreasing_by
  · simp
  · have := length_dropWhile_le (fun d => !isSafeFileChar d) cs
    simp
    omega

/-- Filename sanitization of the Attachment Relocator, on strings. -/
def safeFileName (s : String) : String := ⟨sanitizeChars s.data⟩

/-! ## Trello-side raw data (the go-trello collaborator)

The Trello API calls card.Actions(), card.Checklists(), card.Attachments()
made by the Normalizer and the Relocator are embedded as fields of the
TrelloCard record holding the fetched data.  When a fetch fails the Go code
logs and proceeds with a nil slice, which is the empty list here. -/

/-- The Data field of a Trello action (go-trello). -/
structure TrelloActionData where
  text : String
deriving DecidableEq, Repr

/-- The MemberCreator field of a Trello action (go-trello). -/
structure TrelloMemberCreator where
  id : String
  fullName : String
deriving DecidableEq, Repr

/-- One entry of the action history of a Trello card (go-trello). -/
structure TrelloAction where
  type : String
  data : TrelloActionData
  date : String
  memberCreator : TrelloMemberCreator
deriving DecidableEq, Repr

/-- One item of a Trello checklist (go-trello). -/
structure TrelloCheckItem where
  name : String
  state : String
deriving DecidableEq, Repr

/-- A Trello checklist (go-trello). -/
structure TrelloChecklist where
  name : String
  checkItems : List TrelloCheckItem
deriving DecidableEq, Repr

/-- A Trello label (go-trello). -/
structure TrelloLabel where
  name : String
deriving DecidableEq, Repr

/-- A Trello attachment (go-trello). -/
structure TrelloAttachment where
  name : String
  url : String
deriving DecidableEq, Repr

/-- A raw Trello card together with the data its fetch methods return. -/
structure TrelloCard where
  id : String
  idList : String
  name : String
  desc : String
  due : String
  pos : Float
  shortUrl : String
  idMembers : List String
  labels : List TrelloLabel
  actions : List TrelloAction
  checklists : List TrelloChecklist
  attachments : List TrelloAttachment

/-! ## The intermediate Card representation (trello.go) -/

/-- Comment of the intermediate representation (trello.go).  CreatedAt is a
Go pointer that parseDateOrReturnNil may leave nil, hence Option. -/
structure Comment where
  text : String
  idCreator : String
  creatorName : String
  createdAt : Option GoTime
deriving DecidableEq, Repr

/-- Task of the intermediate representation (trello.go). -/
structure Task where
  completed : Bool
  description : String
deriving DecidableEq, Repr

/-- Card of the intermediate representation (trello.go).  Attachments is a
Go map from sanitized filename to shareable URL, embedded as an association
list with at most one entry per key. -/
structure Card where
  name : String
  desc : String
  labels : List String
  dueDate : Option GoTime
  idCreator : String
  idOwners : List String
  createdAt : Option GoTime
  comments : List Comment
  tasks : List Task
  position : Float
  shortURL : String
  attachments : List (String × String)

/-! ## Card Normalizer (trello.go) -/

/-- Loop body of getCommentsAndCardCreator: one pass over the action history
with three mutable accumulators (creator, createdAt, comments), exactly as
the Go for loop writes them. -/
def gcacLoop : String → Option GoTime → List Comment → List TrelloAction →
    String × Option GoTime × List Comment
  | creator, createdAt, comments, [] => (creator, createdAt, comments)
  | creator, createdAt, comments, a :: rest =>
    if a.type == "commentCard" && a.data.text != "" then
      gcacLoop creator createdAt
        (comments ++ [⟨a.data.text, a.memberCreator.id, a.memberCreator.fullName,
                       parseDateOrReturnNil a.date⟩]) rest
    else if a.type == "createCard" then
      gcacLoop a.memberCreator.id (parseDateOrReturnNil a.date) comments rest
    else
      gcacLoop creator createdAt comments rest

/-- Embedding of getCommentsAndCardCreator (trello.go), parameterized by the
fetched action history.  The Go zero values of the accumulators are the
empty string, the nil time pointer and the nil comment slice. -/
def getCommentsAndCardCreator (actions : List TrelloAction) :
    String × Option GoTime × List Comment :=
  gcacLoop "" none [] actions

/-- Embedding of getCheckListsForCard (trello.go), parameterized by the
fetched checklists: the nested for loop over checklists and their items,
appending one Task per item. -/
def getCheckListsForCard (checklists : List TrelloChecklist) : List Task :=
  checklists.foldl (fun tasks cl =>
    cl.checkItems.foldl (fun tasks i =>
      let completed := if i.state == "complete" then true else false
      tasks ++ [⟨completed, cl.name ++ " - " ++ i.name⟩]) tasks) []

/-- Embedding of getLabelsFlattenFromCard (trello.go): the loop appending
each label name. -/
def getLabelsFlattenFromCard (labels : List TrelloLabel) : List String :=
  labels.foldl (fun acc l => acc ++ [l.name]) []

/-! ## Attachment Relocator (trello.go) -/

/-- Request body sent to the Dropbox sharing endpoints (trello.go). -/
structure DropboxShareReq where
  path : String
deriving DecidableEq, Repr

/-- Response object of CreateSharedLink (trello.go).  Expires carries the
omitempty JSON tag, hence Option. -/
structure DropboxShareLink where
  url : String
  path : String
  expires : Option GoTime
deriving DecidableEq, Repr

/-- Response object of GetSharedLinks (trello.go). -/
structure DropboxShareLinks where
  links : List DropboxShareLink
deriving DecidableEq, Repr

/-- Responses of the external Dropbox HTTP API, one function per endpoint
the Relocator touches.  pathDisplay is the PathDisplay field of the upload
response; the two sharing functions describe what the API would answer to
the POST requests issued by the call helper. -/
structure DropboxEnv where
  pathDisplay : String → String
  listSharedLinksResp : String → DropboxShareLinks
  createSharedLinkResp : String → DropboxShareLink

/-- Network effect of the call helper (trello.go) against the
list_shared_links endpoint: the decoded response body. -/
def callListSharedLinks (env : DropboxEnv) (sh : DropboxShareReq) : DropboxShareLinks :=
  env.listSharedLinksResp sh.path

/-- Network effect of the call helper (trello.go) against the
create_shared_link_with_settings endpoint: the decoded response body. -/
def callCreateSharedLink (env : DropboxEnv) (sh : DropboxShareReq) : DropboxShareLink :=
  env.createSharedLinkResp sh.path

/-- Embedding of getSharedLinks (trello.go).  The Go function declares the
named returns (out *DropboxShareLinks, err error), performs the POST via
call(sh, endpoint) but discards its result and never assigns out or err, so
it returns the zero values: the nil pointer and the nil error. -/
def getSharedLinks (env : DropboxEnv) (path : String) :
    Option DropboxShareLinks × Option String :=
  let sh := DropboxShareReq.mk path
  let _ := callListSharedLinks env sh
  (none, none)

/-- Embedding of createShareLink (trello.go).  Exactly as getSharedLinks:
the named returns are never assigned, so the nil pointer and the nil error
come back regardless of the API response. -/
def createShareLink (env : DropboxEnv) (path : String) :
    Option DropboxShareLink × Option String :=
  let sh := DropboxShareReq.mk path
  let _ := callCreateSharedLink env sh
  (none, none)

/-- Assignment m[k] = v on a Go map embedded as an association list: an
existing entry for the key is replaced in place, otherwise the pair is
appended. -/
def mapInsert (m : List (String × String)) (k v : String) : List (String × String) :=
  if m.any (fun kv => kv.1 == k) then
    m.map (fun kv => if kv.1 == k then (k, v) else kv)
  else
    m ++ [(k, v)]

/-- Loop body of downloadCardAttachmentsUploadToDropbox (trello.go) over the
indexed attachment list.  Download and upload are modeled as succeeding
(their failures call log.Fatal, which is outside the per-card semantics the
claims quantify over).  After the upload the source reads
len(links.Links) where links is the first component of getSharedLinks;
when that pointer is nil the read is a nil dereference.  In the empty
branch the source tests err from createShareLink, which is always nil, and
then reads link.URL, again a nil dereference when link is nil. -/
def relocLoop (env : DropboxEnv) (card : TrelloCard) :
    Nat → List TrelloAttachment → List (String × String) →
    Except GoPanic (List (String × String))
  | _, [], sharedLinks => .ok sharedLinks
  | i, f :: rest, sharedLinks =>
    let name := safeFileName f.name
    let path := "/trello/" ++ card.idList ++ "/" ++ card.id ++ "/" ++
                toString i ++ "_" ++ name
    let o := env.pathDisplay path
    match getSharedLinks env o with
    | (none, _) => .error .nilPointerDereference
    | (some links, _) =>
      match links.links with
      | [] =>
        match createShareLink env o with
        | (link, none) =>
          match link with
          | none => .error .nilPointerDereference
          | some l => relocLoop env card (i + 1) rest (mapInsert sharedLinks name l.url)
        | (_, some _) =>
          relocLoop env card (i + 1) rest sharedLinks
      | l0 :: _ =>
        relocLoop env card (i + 1) rest (mapInsert sharedLinks name l0.url)

/-- Embedding of downloadCardAttachmentsUploadToDropbox (trello.go): the
indexed loop starting from the empty map. -/
def downloadCardAttachmentsUploadToDropbox (env : DropboxEnv) (card : TrelloCard) :
    Except GoPanic (List (String × String)) :=
  relocLoop env card 0 card.attachments []

/-- Modelled from the spec: the TrelloOptions run configuration consumed by
ProcessCardsForExporting (its declaring file is not under src/); the only
field the Normalizer reads is the flag enabling attachment processing. -/
structure TrelloOptions where
  processImages : Bool

/-- Embedding of ProcessCardsForExporting (trello.go): builds one
intermediate Card per raw card; when attachment processing is enabled the
Relocator runs and its panic aborts the batch. -/
def ProcessCardsForExporting (env : DropboxEnv) (crds : List TrelloCard)
    (opts : TrelloOptions) : Except GoPanic (List Card) :=
  crds.foldlM (fun cards card => do
    let gcac := getCommentsAndCardCreator card.actions
    let attachments ←
      if opts.processImages then downloadCardAttachmentsUploadToDropbox env card
      else pure []
    pure (cards ++ [{ name := card.name
                      desc := card.desc
                      labels := getLabelsFlattenFromCard card.labels
                      dueDate := parseDateOrReturnNil card.due
                      idCreator := gcac.1
                      idOwners := card.idMembers
                      createdAt := gcac.2.1
                      comments := gcac.2.2
                      tasks := getCheckListsForCard card.checklists
                      position := card.pos
                      shortURL := card.shortUrl
                      attachments := attachments }])) []

/-! ## Import Orchestrator (import.go) -/

/-- Modelled from the spec: the User Identity Map.  The repository file
declaring the UserMap type and its GetCreator method is not under src/;
the spec describes it as a pure lookup translating source member
identifiers into destination user identifiers, with no network calls. -/
structure UserMap where
  getCreator : String → String

/-- Modelled from the spec: the destination project chosen for the run
(only its identifier is consumed by import.go). -/
structure ChProject where
  id : Nat

/-- Modelled from the spec: the destination workflow state chosen for the
run (only its identifier is consumed by import.go). -/
structure ChWorkflowState where
  id : Nat

/-- Modelled from the spec: the importing destination member (only its
identifier is consumed by import.go). -/
structure ChMember where
  id : String

/-- Modelled from the spec: the ClubhouseOptions run configuration consumed
by import.go (project, workflow state, story type, importing member and the
add-Trello-link flag); its declaring file is not under src/.  The
ClubhouseEntry API client it also carries is modeled by the explicit
ChState threaded through the orchestrator. -/
structure ClubhouseOptions where
  project : ChProject
  state : ChWorkflowState
  storyType : String
  importMember : ChMember
  addCommentWithTrelloLink : Bool

/-- A story record held by the destination service (the fields the
orchestrator reads: ID and Name). -/
structure ChStory where
  id : Nat
  name : String
deriving DecidableEq, Repr

/-- State of the destination Clubhouse server: the stored stories plus the
fresh-identifier counters a well-formed server maintains. -/
structure ChState where
  stories : List ChStory
  nextStoryId : Nat
  nextFileId : Nat
deriving DecidableEq, Repr

/-- Destination API ListStories: the stories currently stored. -/
def listStories (s : ChState) : List ChStory := s.stories

/-- Destination API DeleteStory: removes the story with the given id; the
second component reports the error the API returns when no such story
exists (the orchestrator only logs it). -/
def deleteStory (sid : Nat) (s : ChState) : ChState × Option String :=
  (⟨s.stories.filter (fun st => !(st.id == sid)), s.nextStoryId, s.nextFileId⟩,
   if s.stories.any (fun st => st.id == sid) then none else some "story not found")

/-- Comment payload of a Clubhouse CreateStory request (clubhouse-go).  The
CreatedAt field is a plain time.Time value, which is why building it
dereferences the pointer held by the intermediate Comment. -/
structure CreateComment where
  createdAt : GoTime
  authorId : String
  text : String
deriving DecidableEq, Repr

/-- Task payload of a Clubhouse CreateStory request (clubhouse-go). -/
structure CreateTask where
  complete : Bool
  description : String
deriving DecidableEq, Repr

/-- Label payload of a Clubhouse CreateStory request (clubhouse-go). -/
structure CreateLabel where
  name : String
deriving DecidableEq, Repr

/-- Linked-file creation request (clubhouse-go). -/
structure CreateLinkedFile where
  name : String
  type : String
  url : String
  uploaderId : String
deriving DecidableEq, Repr

/-- Story creation request (clubhouse-go), with the fields import.go sets. -/
structure CreateStory where
  projectId : Nat
  workflowStateId : Nat
  requestedById : String
  ownerIds : List String
  storyType : String
  followerIds : List String
  fileIds : List Int
  name : String
  description : String
  deadline : Option GoTime
  createdAt : Option GoTime
  labels : List CreateLabel
  tasks : List CreateTask
  comments : List CreateComment
  linkedFileIds : List Nat
deriving DecidableEq, Repr

/-- Destination API CreateStory: stores a new story under a fresh id and
returns it. -/
def createStory (req : CreateStory) (s : ChState) : ChStory × ChState :=
  (⟨s.nextStoryId, req.name⟩,
   ⟨s.stories ++ [⟨s.nextStoryId, req.name⟩], s.nextStoryId + 1, s.nextFileId⟩)

/-- Destination API CreateLinkedFiles: registers a linked file and returns
its fresh id. -/
def createLinkedFile (_lf : CreateLinkedFile) (s : ChState) : Nat × ChState :=
  (s.nextFileId, ⟨s.stories, s.nextStoryId, s.nextFileId + 1⟩)

/-- Embedding of buildLabels (import.go): one CreateLabel per label name. -/
def buildLabels (card : Card) : List CreateLabel :=
  card.labels.foldl (fun labels l => labels ++ [⟨l⟩]) []

/-- Embedding of buildTasks (import.go): one CreateTask per Task, keeping
completion and description. -/
def buildTasks (card : Card) : List CreateTask :=
  card.tasks.foldl (fun tasks t => tasks ++ [⟨t.completed, t.description⟩]) []

/-- Loop of buildComments (import.go) over the intermediate comments.  The
source reads *cm.CreatedAt unconditionally; when the pointer is nil this is
a nil dereference, modeled as the error case. -/
def buildCommentsLoop (um : UserMap) :
    List Comment → List CreateComment → Except GoPanic (List CreateComment)
  | [], comments => .ok comments
  | cm :: rest, comments =>
    match cm.createdAt with
    | none => .error .nilPointerDereference
    | some t =>
      buildCommentsLoop um rest (comments ++ [⟨t, um.getCreator cm.idCreator, cm.text⟩])

/-- Embedding of buildComments (import.go): maps every intermediate comment
and, when addCommentWithTrelloLink is set, appends the synthetic comment
built from time.Now() (the now parameter) and the card short URL; its
AuthorID field is left at the Go zero value, the empty string. -/
def buildComments (card : Card) (addCommentWithTrelloLink : Bool) (um : UserMap)
    (now : GoTime) : Except GoPanic (List CreateComment) :=
  match buildCommentsLoop um card.comments [] with
  | .error p => .error p
  | .ok comments =>
    .ok (if addCommentWithTrelloLink then
           comments ++ [⟨now, "", "Card imported from Trello: " ++ card.shortURL⟩]
         else comments)

/-- Embedding of mapOwnersFromTrelloCard (import.go): the loop translating
each owner id through the identity map. -/
def mapOwnersFromTrelloCard (c : Card) (um : UserMap) : List String :=
  c.idOwners.foldl (fun owners o => owners ++ [um.getCreator o]) []

/-- Embedding of buildLinkFiles (import.go): one CreateLinkedFiles API call
per attachment entry, collecting the returned ids (the call is modeled as
succeeding; its failure is only logged and the id skipped). -/
def buildLinkFiles (card : Card) (opts : ClubhouseOptions) (s : ChState) :
    List Nat × ChState :=
  card.attachments.foldl (fun (acc : List Nat × ChState) kv =>
    let r := createLinkedFile ⟨kv.1, "dropbox", kv.2, opts.importMember.id⟩ acc.2
    (acc.1 ++ [r.1], r.2)) ([], s)

/-- Embedding of buildClubhouseStory (import.go).  The struct literal
evaluates its fields in source order, so buildComments runs (and can panic)
before buildLinkFiles performs its API calls. -/
def buildClubhouseStory (card : Card) (opts : ClubhouseOptions) (um : UserMap)
    (now : GoTime) (s : ChState) : Except GoPanic (CreateStory × ChState) :=
  match buildComments card opts.addCommentWithTrelloLink um now with
  | .error p => .error p
  | .ok comments =>
    let lf := buildLinkFiles card opts s
    .ok ({ projectId := opts.project.id
           workflowStateId := opts.state.id
           requestedById := um.getCreator card.idCreator
           ownerIds := mapOwnersFromTrelloCard card um
           storyType := opts.storyType
           followerIds := []
           fileIds := []
           name := card.name
           description := card.desc
           deadline := card.dueDate
           createdAt := card.createdAt
           labels := buildLabels card
           tasks := buildTasks card
           comments := comments
           linkedFileIds := lf.1 }, lf.2)

/-- Embedding of deleteMatchingStories (import.go): for every story of the
listing passed in whose name equals the card name, call DeleteStory; the
error is only used for printing. -/
def deleteMatchingStories (stories : List ChStory) (opts : ClubhouseOptions)
    (card : Card) (s : ChState) : ChState :=
  let _ := opts
  stories.foldl (fun st story =>
    if story.name == card.name then (deleteStory story.id st).1 else st) s

/-- Per-card loop of ImportCardsIntoClubhouse (import.go): delete the
snapshot stories matching the card name, build the story (dereferencing the
build result, so a panic in buildComments aborts the run), create it, and
continue with the next card (a CreateStory API error is only printed). -/
def importLoop (snapshot : List ChStory) (opts : ClubhouseOptions) (um : UserMap)
    (now : GoTime) : List Card → ChState → Except GoPanic ChState
  | [], s => .ok s
  | c :: rest, s =>
    let s1 := deleteMatchingStories snapshot opts c s
    match buildClubhouseStory c opts um now s1 with
    | .error p => .error p
    | .ok (req, s2) =>
      let r := createStory req s2
      importLoop snapshot opts um now rest r.2

/-- Embedding of ImportCardsIntoClubhouse (import.go): list the existing
stories once, then run the per-card loop against that snapshot. -/
def ImportCardsIntoClubhouse (cards : List Card) (opts : ClubhouseOptions)
    (um : UserMap) (now : GoTime) (s : ChState) : Except GoPanic ChState :=
  importLoop (listStories s) opts um now cards s

/-- Specification-side description of the stories a run creates: one fresh
story per card, in order, with ids counting up from the given next-id. -/
def newStories : List Card → Nat → List ChStory
  | [], _ => []
  | c :: rest, n => ⟨n, c.name⟩ :: newStories rest (n + 1)

/-! ## Concrete values used by witnesses and counterexamples -/

/-- Identity identity-map used in concrete scenarios. -/
def umId : UserMap := ⟨fun s => s⟩

/-- Run configuration without the synthetic Trello-link comment. -/
def optsNoLink : ClubhouseOptions :=
  { project := ⟨1⟩, state := ⟨2⟩, storyType := "feature", importMember := ⟨"m1"⟩,
    addCommentWithTrelloLink := false }

/-- Run configuration with the synthetic Trello-link comment enabled. -/
def optsLink : ClubhouseOptions :=
  { optsNoLink with addCommentWithTrelloLink := true }

/-- A fixed value standing for time.Now() in concrete scenarios. -/
def now0 : GoTime := ⟨2024, 1, 1, 0, 0, 0, 0⟩

/-- An empty destination server. -/
def chEmpty : ChState := ⟨[], 0, 0⟩

/-- A card named X with no comments (first of a colliding pair). -/
def cardX1 : Card :=
  { name := "X", desc := "", labels := [], dueDate := none, idCreator := "u1",
    idOwners := [], createdAt := none, comments := [], tasks := [],
    position := 0, shortURL := "https://trello.com/c/x1", attachments := [] }

/-- A second, distinct card that also bears the name X. -/
def cardX2 : Card := { cardX1 with shortURL := "https://trello.com/c/x2" }

/-- A card named A with no comments. -/
def cardA : Card := { cardX1 with name := "A", shortURL := "https://trello.com/c/a" }

/-- A card named B with no comments. -/
def cardB : Card := { cardX1 with name := "B", shortURL := "https://trello.com/c/b" }

/-- A card holding one comment whose created-at pointer is nil, as the
Normalizer produces when the comment date fails to parse. -/
def cardNilComment : Card :=
  { cardX1 with
    name := "N"
    shortURL := "https://trello.com/c/n"
    comments := [⟨"hello", "u2", "User Two", none⟩] }

/-- A card holding one fully dated comment. -/
def cardDated : Card :=
  { cardX1 with
    name := "D"
    shortURL := "https://trello.com/c/d"
    comments := [⟨"hello", "u2", "User Two", some ⟨2023, 5, 1, 0, 0, 0, 0⟩⟩] }

/-- A Dropbox environment whose sharing API already holds one shared link
for every path. -/
def envReuse : DropboxEnv :=
  { pathDisplay := fun p => p
    listSharedLinksResp := fun _ => ⟨[⟨"https://db.example/existing", "/trello/x", none⟩]⟩
    createSharedLinkResp := fun _ => ⟨"https://db.example/fresh", "/trello/x", none⟩ }

/-- A raw Trello card carrying a single attachment. -/
def trelloCardOneAtt : TrelloCard :=
  { id := "c1", idList := "l1", name := "One", desc := "", due := "", pos := 0,
    shortUrl := "https://trello.com/c/one", idMembers := [], labels := [],
    actions := [], checklists := [], attachments := [⟨"photo.png", "http://t/p"⟩] }

/-- A raw Trello card carrying two attachments whose names sanitize to the
same storage-safe name a_b.png. -/
def trelloCardTwoAtt : TrelloCard :=
  { trelloCardOneAtt with
    id := "c2"
    shortUrl := "https://trello.com/c/two"
    attachments := [⟨"a b.png", "http://t/a"⟩, ⟨"a#b.png", "http://t/b"⟩] }

/-! # Theorems -/

/-! ## Filename sanitization (claim C6) -/

theorem sanitizeChars_all_safe :
    ∀ l : List Char, (∀ c ∈ l, isSafeFileChar c = true) → sanitizeChars l = l := by
  intro l
  induction l with
  | nil => intro _; simp [sanitizeChars]
  | cons c cs ih =>
    intro h
    have hc : isSafeFileChar c = true := h c (List.mem_cons_self c cs)
    rw [sanitizeChars, if_pos hc, ih (fun d hd => h d (List.mem_cons_of_mem c hd))]

theorem mem_dropWhile_subset {p : Char → Bool} :
    ∀ l : List Char, ∀ c ∈ l.dropWhile p, c ∈ l := by
  intro l
  induction l with
  | nil => simp [List.dropWhile]
  | cons a as ih =>
    intro c hc
    by_cases h : p a
    · simp only [List.dropWhile, h] at hc
      exact List.mem_cons_of_mem a (ih c hc)
    · simp only [List.dropWhile, h] at hc
      simpa using hc

theorem sanitizeChars_output_safe :
    ∀ n : Nat, ∀ l : List Char, l.length ≤ n →
      ∀ c ∈ sanitizeChars l, isSafeFileChar c = true := by
  intro n
  induction n with
  | zero =>
    intro l hl
    have : l = [] := List.eq_nil_of_length_eq_zero (Nat.le_zero.mp hl)
    subst this
    simp [sanitizeChars]
  | succ n ih =>
    intro l hl c hc
    match l with
    | [] => simp [sanitizeChars] at hc
    | a :: as =>
      by_cases ha : isSafeFileChar a
      · rw [sanitizeChars, if_pos ha] at hc
        rcases List.mem_cons.mp hc with h | h
        · exact h ▸ ha
        · exact ih as (Nat.le_of_succ_le_succ (by simpa using hl)) c h
      · rw [sanitizeChars, if_neg ha] at hc
        rcases List.mem_cons.mp hc with h | h
        · subst h; rfl
        · have hlen : (as.dropWhile (fun d => !isSafeFileChar d)).length ≤ n := by
            have h1 := length_dropWhile_le (fun d => !isSafeFileChar d) as
            have h2 : as.length + 1 ≤ n + 1 := by simpa using hl
            omega
          exact ih _ hlen c h

/-- Claim C6: for every input filename, sanitization replaces every maximal
run of characters outside the class of letters, digits, underscore and
period with a single underscore.  Verified content: the example
"My File #1.png" sanitizes to "My_File_1.png"; any input consisting only of
safe characters is returned unchanged; and every character of the output is
safe (so the produced name is storage safe). -/
theorem c6_filename_sanitization :
    safeFileName "My File #1.png" = "My_File_1.png"
    ∧ (∀ s : String, (∀ c ∈ s.data, isSafeFileChar c = true) → safeFileName s = s)
    ∧ (∀ s : String, ∀ c ∈ (safeFileName s).data, isSafeFileChar c = true) := by
  refine ⟨?_, ?_, ?_⟩
  · simp [safeFileName, sanitizeChars, List.dropWhile, isSafeFileChar]
  · intro s h
    cases s with
    | mk data => exact congrArg String.mk (sanitizeChars_all_safe data h)
  · intro s c hc
    exact sanitizeChars_output_safe s.data.length s.data (Nat.le_refl _) c hc

/-- Witness for C6: the second conjunct applied to a concrete safe name. -/
theorem c6_filename_sanitization_witness :
    safeFileName "report_v2.png" = "report_v2.png" :=
  c6_filename_sanitization.2.1 "report_v2.png" (by decide)

/-! ## Timestamp parsing (claim C7) -/

theorem digitVal_le_nine {c : Char} (h : isDigitChar c = true) : digitVal c ≤ 9 := by
  simp only [isDigitChar, Bool.and_eq_true, decide_eq_true_eq] at h
  simp only [digitVal]
  omega

theorem char_toNat_ofNat {n : Nat} (h : n < 55296) : (Char.ofNat n).toNat = n := by
  have hv : n.isValidChar := Or.inl h
  rw [Char.ofNat, dif_pos hv]
  rfl

theorem isDigitChar_render {x : Nat} (h : x ≤ 9) :
    isDigitChar (Char.ofNat (48 + x)) = true := by
  simp only [isDigitChar, char_toNat_ofNat (show 48 + x < 55296 by omega),
    Bool.and_eq_true, decide_eq_true_eq]
  omega

theorem digitVal_render {x : Nat} (h : x ≤ 9) : digitVal (Char.ofNat (48 + x)) = x := by
  simp only [digitVal, char_toNat_ofNat (show 48 + x < 55296 by omega)]
  omega

theorem parseFrac_le_999 {s6 f1 f2 f3 : Char} {m : Nat}
    (h : parseFrac s6 f1 f2 f3 = some m) : m ≤ 999 := by
  unfold parseFrac at h
  split at h
  · split at h
    · rename_i hg
      simp only [Bool.and_eq_true] at hg
      obtain ⟨⟨h1, h2⟩, h3⟩ := hg
      injection h with h
      have a1 := digitVal_le_nine h1
      have a2 := digitVal_le_nine h2
      have a3 := digitVal_le_nine h3
      omega
    · split at h
      · rename_i hg
        simp only [Bool.and_eq_true] at hg
        obtain ⟨⟨_, h2⟩, h3⟩ := hg
        injection h with h
        have a2 := digitVal_le_nine h2
        have a3 := digitVal_le_nine h3
        omega
      · exact absurd h (by simp)
  · exact absurd h (by simp)

theorem parseFrac_render {ms : Nat} (h : ms ≤ 999) :
    parseFrac '.' (Char.ofNat (48 + ms / 100)) (Char.ofNat (48 + ms / 10 % 10))
      (Char.ofNat (48 + ms % 10)) = some ms := by
  have e1 := isDigitChar_render (show ms / 100 ≤ 9 by omega)
  have e2 := isDigitChar_render (show ms / 10 % 10 ≤ 9 by omega)
  have e3 := isDigitChar_render (show ms % 10 ≤ 9 by omega)
  have v1 := digitVal_render (show ms / 100 ≤ 9 by omega)
  have v2 := digitVal_render (show ms / 10 % 10 ≤ 9 by omega)
  have v3 := digitVal_render (show ms % 10 ≤ 9 by omega)
  unfold parseFrac
  rw [if_pos (by simp), if_pos (by simp [e1, e2, e3]), v1, v2, v3]
  congr 1
  omega

theorem daysIn_le_31 (m y : Nat) : daysIn m y ≤ 31 := by
  unfold daysIn
  split
  · split <;> omega
  · split <;> omega

theorem parseDateFields_valid {t : GoTime}
    {y1 y2 y3 y4 s1 mo1 mo2 s2 d1 d2 s3 : Char} {hour : Nat}
    {s4 mi1 mi2 s5 se1 se2 s6 f1 f2 f3 s7 : Char}
    (h : parseDateFields y1 y2 y3 y4 s1 mo1 mo2 s2 d1 d2 s3 hour
          s4 mi1 mi2 s5 se1 se2 s6 f1 f2 f3 s7 = some t) :
    1 ≤ t.month ∧ t.month ≤ 12 ∧ 1 ≤ t.day ∧ t.day ≤ daysIn t.month t.year
    ∧ t.hour ≤ 23 ∧ t.minute ≤ 59 ∧ t.second ≤ 59 ∧ t.millis ≤ 999
    ∧ t.year ≤ 9999 := by
  unfold parseDateFields at h
  split at h
  · rename_i hg
    simp only [Bool.and_eq_true] at hg
    split at h
    · exact absurd h (by simp)
    · rename_i millis hfrac
      split at h
      · rename_i hcond
        injection h with h
        subst h
        dsimp only
        have hy1 := digitVal_le_nine hg.1.1.1.1.1.1.1.1.1.1.1.1.1.1.1.1.1
        have hy2 := digitVal_le_nine hg.1.1.1.1.1.1.1.1.1.1.1.1.1.1.1.1.2
        have hy3 := digitVal_le_nine hg.1.1.1.1.1.1.1.1.1.1.1.1.1.1.1.2
        have hy4 := digitVal_le_nine hg.1.1.1.1.1.1.1.1.1.1.1.1.1.1.2
        have hms := parseFrac_le_999 hfrac
        refine ⟨hcond.2.2.2.1, hcond.2.2.2.2.1, hcond.2.2.2.2.2.1,
          hcond.2.2.2.2.2.2, hcond.1, hcond.2.1, hcond.2.2.1, hms, by omega⟩
      · exact absurd h (by simp)
  · exact absurd h (by simp)

/-- Claim C7: for every date string, the timestamp parsing either returns
the date read through the fixed layout 2006-01-02T15:04:05.000Z, with the
lenient readings the Go parser applies to that layout (the hour token is
read with non-fixed width, so a one-digit hour is accepted, and the
fractional separator may be a comma), or on any parse failure (including
the empty input) returns the absent value; no error is ever propagated,
the return type having no error channel.  Layout fidelity is stated by:
the two lenient concrete inputs parse to the claimed dates; every parsed
result is a calendar-valid date within the ranges of the layout; and
rendering any in-range date through the layout and parsing it back yields
that date exactly. -/
theorem c7_parse_date_total_layout :
    parseDateOrReturnNil "" = none
    ∧ parseDateOrReturnNil "2023-13-01T00:00:00.000Z" = none
    ∧ parseDateOrReturnNil "2023-05-01T3:04:05.000Z" = some ⟨2023, 5, 1, 3, 4, 5, 0⟩
    ∧ parseDateOrReturnNil "2023-05-01T12:30:45,120Z" = some ⟨2023, 5, 1, 12, 30, 45, 120⟩
    ∧ (∀ (s : String) (t : GoTime), parseDateOrReturnNil s = some t →
        1 ≤ t.month ∧ t.month ≤ 12 ∧ 1 ≤ t.day ∧ t.day ≤ daysIn t.month t.year
        ∧ t.hour ≤ 23 ∧ t.minute ≤ 59 ∧ t.second ≤ 59 ∧ t.millis ≤ 999
        ∧ t.year ≤ 9999)
    ∧ (∀ t : GoTime, t.year ≤ 9999 → 1 ≤ t.month → t.month ≤ 12 →
        1 ≤ t.day → t.day ≤ daysIn t.month t.year → t.hour ≤ 23 →
        t.minute ≤ 59 → t.second ≤ 59 → t.millis ≤ 999 →
        parseDateOrReturnNil (formatDateLayout t) = some t) := by
  refine ⟨by decide, by decide, by decide, by decide, ?_, ?_⟩
  · intro s t h
    obtain ⟨data⟩ := s
    simp only [parseDateOrReturnNil] at h
    split at h
    · split at h
      · exact parseDateFields_valid h
      · exact absurd h (by simp)
    · split at h
      · exact parseDateFields_valid h
      · exact absurd h (by simp)
    · exact absurd h (by simp)
  · intro t hy hm1 hm2 hd1 hd2 hh hmin hsec hms
    obtain ⟨y, mo, d, hr, mi, se, ms⟩ := t
    simp only at hy hm1 hm2 hd1 hd2 hh hmin hsec hms
    have hd31 : d ≤ 31 := Nat.le_trans hd2 (daysIn_le_31 mo y)
    have ey1 := isDigitChar_render (show y / 1000 ≤ 9 by omega)
    have ey2 := isDigitChar_render (show y / 100 % 10 ≤ 9 by omega)
    have ey3 := isDigitChar_render (show y / 10 % 10 ≤ 9 by omega)
    have ey4 := isDigitChar_render (show y % 10 ≤ 9 by omega)
    have emo1 := isDigitChar_render (show mo / 10 ≤ 9 by omega)
    have emo2 := isDigitChar_render (show mo % 10 ≤ 9 by omega)
    have ed1 := isDigitChar_render (show d / 10 ≤ 9 by omega)
    have ed2 := isDigitChar_render (show d % 10 ≤ 9 by omega)
    have eh1 := isDigitChar_render (show hr / 10 ≤ 9 by omega)
    have eh2 := isDigitChar_render (show hr % 10 ≤ 9 by omega)
    have emi1 := isDigitChar_render (show mi / 10 ≤ 9 by omega)
    have emi2 := isDigitChar_render (show mi % 10 ≤ 9 by omega)
    have ese1 := isDigitChar_render (show se / 10 ≤ 9 by omega)
    have ese2 := isDigitChar_render (show se % 10 ≤ 9 by omega)
    have vy1 := digitVal_render (show y / 1000 ≤ 9 by omega)
    have vy2 := digitVal_render (show y / 100 % 10 ≤ 9 by omega)
    have vy3 := digitVal_render (show y / 10 % 10 ≤ 9 by omega)
    have vy4 := digitVal_render (show y % 10 ≤ 9 by omega)
    have vmo1 := digitVal_render (show mo / 10 ≤ 9 by omega)
    have vmo2 := digitVal_render (show mo % 10 ≤ 9 by omega)
    have vd1 := digitVal_render (show d / 10 ≤ 9 by omega)
    have vd2 := digitVal_render (show d % 10 ≤ 9 by omega)
    have vh1 := digitVal_render (show hr / 10 ≤ 9 by omega)
    have vh2 := digitVal_render (show hr % 10 ≤ 9 by omega)
    have vmi1 := digitVal_render (show mi / 10 ≤ 9 by omega)
    have vmi2 := digitVal_render (show mi % 10 ≤ 9 by omega)
    have vse1 := digitVal_render (show se / 10 ≤ 9 by omega)
    have vse2 := digitVal_render (show se % 10 ≤ 9 by omega)
    have ry : 1000 * (y / 1000) + 100 * (y / 100 % 10) + 10 * (y / 10 % 10) + y % 10 = y := by
      omega
    have rmo : 10 * (mo / 10) + mo % 10 = mo := by omega
    have rd : 10 * (d / 10) + d % 10 = d := by omega
    have rh : 10 * (hr / 10) + hr % 10 = hr := by omega
    have rmi : 10 * (mi / 10) + mi % 10 = mi := by omega
    have rse : 10 * (se / 10) + se % 10 = se := by omega
    simp only [formatDateLayout, pad4, pad2, pad3, List.cons_append, List.nil_append]
    simp only [parseDateOrReturnNil]
    rw [if_pos (by simp [eh1, eh2])]
    unfold parseDateFields
    rw [if_pos (by simp [ey1, ey2, ey3, ey4, emo1, emo2, ed1, ed2, emi1, emi2, ese1, ese2])]
    rw [parseFrac_render hms]
    simp only [vy1, vy2, vy3, vy4, vmo1, vmo2, vd1, vd2, vh1, vh2, vmi1, vmi2,
      vse1, vse2, ry, rmo, rd, rh, rmi, rse]
    rw [if_pos ⟨hh, hmin, hsec, hm1, hm2, hd1, hd2⟩]

/-- Witness for C7: the format-parse round trip applied at a concrete
in-range date. -/
theorem c7_parse_date_total_layout_witness :
    parseDateOrReturnNil (formatDateLayout ⟨2023, 5, 1, 12, 30, 45, 120⟩)
      = some ⟨2023, 5, 1, 12, 30, 45, 120⟩ :=
  c7_parse_date_total_layout.2.2.2.2.2 ⟨2023, 5, 1, 12, 30, 45, 120⟩
    (by decide) (by decide) (by decide) (by decide) (by decide) (by decide)
    (by decide) (by decide) (by decide)

/-! ## Creator, created-at and comments from the action history
(claims C3 and C5) -/

theorem gcacLoop_append (l l' : List TrelloAction) (cr : String) (da : Option GoTime)
    (cm : List Comment) :
    gcacLoop cr da cm (l ++ l') =
      gcacLoop (gcacLoop cr da cm l).1 (gcacLoop cr da cm l).2.1
        (gcacLoop cr da cm l).2.2 l' := by
  induction l generalizing cr da cm with
  | nil => simp [gcacLoop]
  | cons a rest ih =>
    cases h1 : (a.type == "commentCard" && a.data.text != "") with
    | true =>
      simp only [List.cons_append, gcacLoop, h1, if_true]
      exact ih _ _ _
    | false =>
      cases h2 : a.type == "createCard" with
      | true =>
        simp only [List.cons_append, gcacLoop, h1, h2, Bool.false_eq_true, if_false, if_true]
        exact ih _ _ _
      | false =>
        simp only [List.cons_append, gcacLoop, h1, h2, Bool.false_eq_true, if_false]
        exact ih _ _ _

theorem gcacLoop_no_createCard (l : List TrelloAction) (cr : String) (da : Option GoTime)
    (cm : List Comment) (h : ∀ b ∈ l, b.type ≠ "createCard") :
    (gcacLoop cr da cm l).1 = cr ∧ (gcacLoop cr da cm l).2.1 = da := by
  induction l generalizing cr da cm with
  | nil => simp [gcacLoop]
  | cons a rest ih =>
    have ha : (a.type == "createCard") = false := by
      simpa using h a (List.mem_cons_self a rest)
    have hrest : ∀ b ∈ rest, b.type ≠ "createCard" :=
      fun b hb => h b (List.mem_cons_of_mem a hb)
    cases h1 : (a.type == "commentCard" && a.data.text != "") with
    | true =>
      simp only [gcacLoop, h1, if_true]
      exact ih _ _ _ hrest
    | false =>
      simp only [gcacLoop, h1, ha, Bool.false_eq_true, if_false]
      exact ih _ _ _ hrest

/-- Claim C3: the creator and created-at fields are set by a
last-match-wins scan of the createCard events.  First conjunct: whatever
precedes it, the last createCard event decides both fields, with the date
run through parseDateOrReturnNil; this specializes to the exactly-one case.
Second conjunct: with zero createCard events the creator is the empty
string and the created-at is absent, and no error is raised (the embedding
is total by construction). -/
theorem c3_creator_last_match_wins :
    (∀ (pre post : List TrelloAction) (a : TrelloAction),
      a.type = "createCard" →
      (∀ b ∈ post, b.type ≠ "createCard") →
      (getCommentsAndCardCreator (pre ++ a :: post)).1 = a.memberCreator.id
      ∧ (getCommentsAndCardCreator (pre ++ a :: post)).2.1 = parseDateOrReturnNil a.date)
    ∧ (∀ actions : List TrelloAction,
      (∀ b ∈ actions, b.type ≠ "createCard") →
      (getCommentsAndCardCreator actions).1 = ""
      ∧ (getCommentsAndCardCreator actions).2.1 = none) := by
  constructor
  · intro pre post a ha hpost
    unfold getCommentsAndCardCreator
    rw [gcacLoop_append]
    have h1 : (a.type == "commentCard" && a.data.text != "") = false := by
      simp [ha]
    have h2 : (a.type == "createCard") = true := by simp [ha]
    rw [gcacLoop, if_neg (by simp [h1]), if_pos (by simp [h2])]
    exact gcacLoop_no_createCard post _ _ _ hpost
  · intro actions h
    exact gcacLoop_no_createCard actions "" none [] h

/-- Witness for C3: a history with two createCard events and a trailing
comment; the second createCard event wins. -/
theorem c3_creator_last_match_wins_witness :
    (getCommentsAndCardCreator
      [⟨"createCard", ⟨""⟩, "bad-date", ⟨"u1", "User One"⟩⟩,
       ⟨"createCard", ⟨""⟩, "2023-05-01T00:00:00.000Z", ⟨"u2", "User Two"⟩⟩,
       ⟨"commentCard", ⟨"hi"⟩, "2023-05-02T00:00:00.000Z", ⟨"u3", "User Three"⟩⟩]).1
      = "u2"
    ∧ (getCommentsAndCardCreator
      [⟨"createCard", ⟨""⟩, "bad-date", ⟨"u1", "User One"⟩⟩,
       ⟨"createCard", ⟨""⟩, "2023-05-01T00:00:00.000Z", ⟨"u2", "User Two"⟩⟩,
       ⟨"commentCard", ⟨"hi"⟩, "2023-05-02T00:00:00.000Z", ⟨"u3", "User Three"⟩⟩]).2.1
      = parseDateOrReturnNil "2023-05-01T00:00:00.000Z" :=
  c3_creator_last_match_wins.1
    [⟨"createCard", ⟨""⟩, "bad-date", ⟨"u1", "User One"⟩⟩]
    [⟨"commentCard", ⟨"hi"⟩, "2023-05-02T00:00:00.000Z", ⟨"u3", "User Three"⟩⟩]
    ⟨"createCard", ⟨""⟩, "2023-05-01T00:00:00.000Z", ⟨"u2", "User Two"⟩⟩
    rfl (by decide)

theorem gcacLoop_comments (l : List TrelloAction) (cr : String) (da : Option GoTime)
    (cm : List Comment) :
    (gcacLoop cr da cm l).2.2 =
      cm ++ (l.filter (fun a => a.type == "commentCard" && a.data.text != "")).map
        (fun a => ⟨a.data.text, a.memberCreator.id, a.memberCreator.fullName,
                   parseDateOrReturnNil a.date⟩) := by
  induction l generalizing cr da cm with
  | nil => simp [gcacLoop]
  | cons a rest ih =>
    cases h1 : (a.type == "commentCard" && a.data.text != "") with
    | true =>
      simp only [gcacLoop, h1, if_true, List.filter_cons, List.map_cons, ih]
      simp
    | false =>
      cases h2 : a.type == "createCard" with
      | true =>
        simp only [gcacLoop, h1, h2, Bool.false_eq_true, if_false, if_true,
          List.filter_cons, ih]
      | false =>
        simp only [gcacLoop, h1, h2, Bool.false_eq_true, if_false, List.filter_cons, ih]

/-- Claim C5: the comment output of the action scan is exactly one Comment
per commentCard event with non-empty text, in action-list order, carrying
the text, actor id, actor display name and the parsed date; commentCard
events with empty text (and all other events) contribute nothing. -/
theorem c5_comments_filter_map (actions : List TrelloAction) :
    (getCommentsAndCardCreator actions).2.2 =
      (actions.filter (fun a => a.type == "commentCard" && a.data.text != "")).map
        (fun a => ⟨a.data.text, a.memberCreator.id, a.memberCreator.fullName,
                   parseDateOrReturnNil a.date⟩) := by
  unfold getCommentsAndCardCreator
  rw [gcacLoop_comments]
  simp

/-! ## Checklist flattening (claim C4) -/

theorem checkItems_foldl (clName : String) (items : List TrelloCheckItem) :
    ∀ acc : List Task,
      items.foldl (fun tasks i =>
        let completed := if i.state == "complete" then true else false
        tasks ++ [⟨completed, clName ++ " - " ++ i.name⟩]) acc
      = acc ++ items.map (fun i => ⟨i.state == "complete", clName ++ " - " ++ i.name⟩) := by
  induction items with
  | nil => intro acc; simp
  | cons i rest ih =>
    intro acc
    rw [List.foldl_cons, ih]
    cases hs : i.state == "complete" with
    | true => simp [hs]
    | false => simp [hs]

/-- Claim C4: the Normalizer emits exactly one Task per item of each
checklist, preserving checklist order and item order; the completed flag is
the boolean equality of the item state with the complete sentinel (so any
other state maps to false), and the description joins the checklist name
and the item name with a separating dash. -/
theorem c4_tasks_one_per_item (checklists : List TrelloChecklist) :
    getCheckListsForCard checklists =
      checklists.flatMap (fun cl =>
        cl.checkItems.map (fun i =>
          ⟨i.state == "complete", cl.name ++ " - " ++ i.name⟩)) := by
  unfold getCheckListsForCard
  suffices h : ∀ acc : List Task,
      checklists.foldl (fun tasks cl =>
        cl.checkItems.foldl (fun tasks i =>
          let completed := if i.state == "complete" then true else false
          tasks ++ [⟨completed, cl.name ++ " - " ++ i.name⟩]) tasks) acc
      = acc ++ checklists.flatMap (fun cl =>
          cl.checkItems.map (fun i =>
            ⟨i.state == "complete", cl.name ++ " - " ++ i.name⟩)) by
    simpa using h []
  induction checklists with
  | nil => intro acc; simp
  | cons cl rest ih =>
    intro acc
    rw [List.foldl_cons, ih]
    simp only [checkItems_foldl, List.flatMap_cons, List.append_assoc]

/-! ## Comment building and the nil created-at dereference
(claims C8 and C9) -/

theorem buildCommentsLoop_ok (um : UserMap) :
    ∀ (l : List Comment) (acc : List CreateComment),
      (∀ cm ∈ l, cm.createdAt ≠ none) →
      buildCommentsLoop um l acc =
        .ok (acc ++ l.map (fun cm =>
          ⟨cm.createdAt.getD goTimeZero, um.getCreator cm.idCreator, cm.text⟩)) := by
  intro l
  induction l with
  | nil => intro acc _; simp [buildCommentsLoop]
  | cons cm rest ih =>
    intro acc h
    cases hcm : cm.createdAt with
    | none => exact absurd hcm (h cm (List.mem_cons_self cm rest))
    | some t =>
      have hrest : ∀ d ∈ rest, d.createdAt ≠ none :=
        fun d hd => h d (List.mem_cons_of_mem cm hd)
      simp only [buildCommentsLoop, hcm]
      rw [ih _ hrest]
      simp [hcm]

theorem buildCommentsLoop_error_iff (um : UserMap) :
    ∀ (l : List Comment) (acc : List CreateComment),
      (buildCommentsLoop um l acc = .error .nilPointerDereference
        ↔ ∃ cm ∈ l, cm.createdAt = none) := by
  intro l
  induction l with
  | nil => intro acc; simp [buildCommentsLoop]
  | cons cm rest ih =>
    intro acc
    cases hcm : cm.createdAt with
    | none =>
      rw [buildCommentsLoop, hcm]
      simp only [true_iff]
      exact ⟨cm, List.mem_cons_self cm rest, hcm⟩
    | some t =>
      rw [buildCommentsLoop, hcm, ih]
      constructor
      · rintro ⟨d, hd, hnone⟩
        exact ⟨d, List.mem_cons_of_mem cm hd, hnone⟩
      · rintro ⟨d, hd, hnone⟩
        rcases List.mem_cons.mp hd with h | h
        · subst h; rw [hcm] at hnone; exact absurd hnone (by simp)
        · exact ⟨d, h, hnone⟩

theorem buildComments_error_iff (card : Card) (flag : Bool) (um : UserMap) (now : GoTime) :
    buildComments card flag um now = .error .nilPointerDereference
      ↔ ∃ cm ∈ card.comments, cm.createdAt = none := by
  rw [← buildCommentsLoop_error_iff um card.comments []]
  cases hr : buildCommentsLoop um card.comments [] with
  | error p => cases p; simp [buildComments, hr]
  | ok cms => simp [buildComments, hr]

/-- Claim C9: buildComments dereferences every created-at pointer, so it
panics exactly when some comment of the card has an absent created-at
(first conjunct, both directions: the nil dereference occurs if and only if
such a comment exists, so the function is total precisely under the
presence precondition).  Second conjunct: the Normalizer produces exactly
such a comment whenever the date of a non-empty commentCard event fails to
parse, so such cards do arise from the export phase. -/
theorem c9_buildComments_nil_dereference :
    (∀ (card : Card) (flag : Bool) (um : UserMap) (now : GoTime),
      buildComments card flag um now = .error .nilPointerDereference
        ↔ ∃ cm ∈ card.comments, cm.createdAt = none)
    ∧ (∀ (actions : List TrelloAction) (a : TrelloAction),
      a ∈ actions → a.type = "commentCard" → a.data.text ≠ "" →
      parseDateOrReturnNil a.date = none →
      ∃ cm ∈ (getCommentsAndCardCreator actions).2.2, cm.createdAt = none) := by
  constructor
  · exact buildComments_error_iff
  · intro actions a ha htype htext hdate
    unfold getCommentsAndCardCreator
    rw [gcacLoop_comments]
    have hpred : (a.type == "commentCard" && a.data.text != "") = true := by
      simp [htype, htext]
    refine ⟨⟨a.data.text, a.memberCreator.id, a.memberCreator.fullName,
      parseDateOrReturnNil a.date⟩, ?_, hdate⟩
    simp only [List.nil_append]
    exact List.mem_map_of_mem _ (List.mem_filter.mpr ⟨ha, hpred⟩)

/-- Witness for C9: the first conjunct applied to a concrete card whose
single comment has an absent created-at. -/
theorem c9_buildComments_nil_dereference_witness :
    buildComments cardNilComment true umId now0 = .error .nilPointerDereference :=
  (c9_buildComments_nil_dereference.1 cardNilComment true umId now0).mpr
    ⟨⟨"hello", "u2", "User Two", none⟩, by simp [cardNilComment, cardX1], rfl⟩

theorem foldl_concat_eq_map {α β : Type} (f : α → β) (l : List α) :
    ∀ acc : List β, List.foldl (fun a x => a ++ [f x]) acc l = acc ++ l.map f := by
  induction l with
  | nil => intro acc; simp
  | cons x rest ih => intro acc; simp [ih]

theorem mapOwnersFromTrelloCard_eq_map (c : Card) (um : UserMap) :
    mapOwnersFromTrelloCard c um = c.idOwners.map um.getCreator := by
  unfold mapOwnersFromTrelloCard
  simpa using foldl_concat_eq_map um.getCreator c.idOwners []

/-- Counterexample to claim C8 as stated: the claim quantifies over every
card, but for this concrete card, whose one comment carries an absent
created-at, no destination creation request is produced at all: the build
step panics with a nil dereference. -/
theorem c8_request_fields_counterexample :
    buildClubhouseStory cardNilComment optsNoLink umId now0 chEmpty
      = .error .nilPointerDereference := by
  have h : buildComments cardNilComment optsNoLink.addCommentWithTrelloLink umId now0
      = .error .nilPointerDereference :=
    (buildComments_error_iff cardNilComment optsNoLink.addCommentWithTrelloLink umId now0).mpr
      ⟨⟨"hello", "u2", "User Two", none⟩, by simp [cardNilComment, cardX1], rfl⟩
  simp [buildClubhouseStory, h]

/-- Claim C8, amended: for every card all of whose comments carry a present
created-at (the counterexample forces exactly this precondition), the
creation request sets RequestedByID to the identity-map translation of the
card creator, sets OwnerIds to the translations of the owner ids preserving
count and order, maps comments 1:1 with the author translated, and appends
exactly one synthetic trailing comment holding the back-link to the card
short URL if and only if the add-Trello-link option is configured. -/
theorem c8_request_fields_of_dated_comments :
    ∀ (card : Card) (opts : ClubhouseOptions) (um : UserMap) (now : GoTime) (s : ChState),
      (∀ cm ∈ card.comments, cm.createdAt ≠ none) →
      ∃ (req : CreateStory) (s' : ChState),
        buildClubhouseStory card opts um now s = .ok (req, s')
        ∧ req.requestedById = um.getCreator card.idCreator
        ∧ req.ownerIds = card.idOwners.map um.getCreator
        ∧ req.comments =
            card.comments.map (fun cm =>
              ⟨cm.createdAt.getD goTimeZero, um.getCreator cm.idCreator, cm.text⟩)
            ++ (if opts.addCommentWithTrelloLink then
                  [⟨now, "", "Card imported from Trello: " ++ card.shortURL⟩]
                else []) := by
  intro card opts um now s h
  have hbc : buildComments card opts.addCommentWithTrelloLink um now =
      .ok ((card.comments.map (fun cm =>
        ⟨cm.createdAt.getD goTimeZero, um.getCreator cm.idCreator, cm.text⟩))
        ++ (if opts.addCommentWithTrelloLink then
              [⟨now, "", "Card imported from Trello: " ++ card.shortURL⟩]
            else [])) := by
    rw [buildComments, buildCommentsLoop_ok um card.comments [] h]
    cases hf : opts.addCommentWithTrelloLink <;> simp
  refine ⟨{ projectId := opts.project.id
            workflowStateId := opts.state.id
            requestedById := um.getCreator card.idCreator
            ownerIds := mapOwnersFromTrelloCard card um
            storyType := opts.storyType
            followerIds := []
            fileIds := []
            name := card.name
            description := card.desc
            deadline := card.dueDate
            createdAt := card.createdAt
            labels := buildLabels card
            tasks := buildTasks card
            comments :=
              (card.comments.map (fun cm =>
                ⟨cm.createdAt.getD goTimeZero, um.getCreator cm.idCreator, cm.text⟩))
              ++ (if opts.addCommentWithTrelloLink then
                    [⟨now, "", "Card imported from Trello: " ++ card.shortURL⟩]
                  else [])
            linkedFileIds := (buildLinkFiles card opts s).1 },
    (buildLinkFiles card opts s).2, ?_, rfl,
    mapOwnersFromTrelloCard_eq_map card um, rfl⟩
  simp only [buildClubhouseStory, hbc]

/-! ## Orchestrator idempotence and the duplicate check (claim C1) -/

theorem deleteMatchingStories_eq (snapshot : List ChStory) (opts : ClubhouseOptions)
    (card : Card) :
    ∀ s : ChState,
      deleteMatchingStories snapshot opts card s =
        ⟨s.stories.filter (fun st =>
            !(snapshot.any (fun y => (y.name == card.name) && (st.id == y.id)))),
         s.nextStoryId, s.nextFileId⟩ := by
  induction snapshot with
  | nil =>
    intro s
    cases s
    simp [deleteMatchingStories]
  | cons y ys ih =>
    intro s
    simp only [deleteMatchingStories] at ih ⊢
    rw [List.foldl_cons]
    cases hy : y.name == card.name with
    | true =>
      rw [if_pos rfl, ih]
      simp only [deleteStory]
      rw [List.filter_filter]
      have hfe : (fun (st : ChStory) =>
            (!(ys.any fun z => z.name == card.name && st.id == z.id)) && (!(st.id == y.id)))
          = (fun (st : ChStory) =>
            !((y :: ys).any fun z => z.name == card.name && st.id == z.id)) := by
        funext st
        simp [hy, Bool.not_or, Bool.and_comm]
      rw [hfe]
    | false =>
      rw [if_neg (by simp), ih]
      have hfe : (fun (st : ChStory) =>
            !(ys.any fun z => z.name == card.name && st.id == z.id))
          = (fun (st : ChStory) =>
            !((y :: ys).any fun z => z.name == card.name && st.id == z.id)) := by
        funext st
        simp [hy]
      rw [hfe]

theorem buildLinkFiles_state (_card : Card) (opts : ClubhouseOptions) :
    ∀ (l : List (String × String)) (acc : List Nat) (s : ChState),
      ((l.foldl (fun (acc : List Nat × ChState) kv =>
          let r := createLinkedFile ⟨kv.1, "dropbox", kv.2, opts.importMember.id⟩ acc.2
          (acc.1 ++ [r.1], r.2)) (acc, s)).2).stories = s.stories
      ∧ ((l.foldl (fun (acc : List Nat × ChState) kv =>
          let r := createLinkedFile ⟨kv.1, "dropbox", kv.2, opts.importMember.id⟩ acc.2
          (acc.1 ++ [r.1], r.2)) (acc, s)).2).nextStoryId = s.nextStoryId := by
  intro l
  induction l with
  | nil => intro acc s; exact ⟨rfl, rfl⟩
  | cons kv rest ih =>
    intro acc s
    rw [List.foldl_cons]
    exact ih _ _

theorem buildLinkFiles_stories (card : Card) (opts : ClubhouseOptions) (s : ChState) :
    (buildLinkFiles card opts s).2.stories = s.stories
    ∧ (buildLinkFiles card opts s).2.nextStoryId = s.nextStoryId :=
  buildLinkFiles_state card opts card.attachments [] s

theorem buildClubhouseStory_ok (card : Card) (opts : ClubhouseOptions) (um : UserMap)
    (now : GoTime) (s : ChState) (h : ∀ cm ∈ card.comments, cm.createdAt ≠ none) :
    ∃ req : CreateStory,
      buildClubhouseStory card opts um now s = .ok (req, (buildLinkFiles card opts s).2)
      ∧ req.name = card.name := by
  have hbc : buildComments card opts.addCommentWithTrelloLink um now =
      .ok ((card.comments.map (fun cm =>
        ⟨cm.createdAt.getD goTimeZero, um.getCreator cm.idCreator, cm.text⟩))
        ++ (if opts.addCommentWithTrelloLink then
              [⟨now, "", "Card imported from Trello: " ++ card.shortURL⟩]
            else [])) := by
    rw [buildComments, buildCommentsLoop_ok um card.comments [] h]
    cases hf : opts.addCommentWithTrelloLink <;> simp
  refine ⟨{ projectId := opts.project.id
            workflowStateId := opts.state.id
            requestedById := um.getCreator card.idCreator
            ownerIds := mapOwnersFromTrelloCard card um
            storyType := opts.storyType
            followerIds := []
            fileIds := []
            name := card.name
            description := card.desc
            deadline := card.dueDate
            createdAt := card.createdAt
            labels := buildLabels card
            tasks := buildTasks card
            comments :=
              (card.comments.map (fun cm =>
                ⟨cm.createdAt.getD goTimeZero, um.getCreator cm.idCreator, cm.text⟩))
              ++ (if opts.addCommentWithTrelloLink then
                    [⟨now, "", "Card imported from Trello: " ++ card.shortURL⟩]
                  else [])
            linkedFileIds := (buildLinkFiles card opts s).1 }, ?_, rfl⟩
  simp only [buildClubhouseStory, hbc]

theorem newStories_names : ∀ (cards : List Card) (n : Nat),
    (newStories cards n).map ChStory.name = cards.map Card.name := by
  intro cards
  induction cards with
  | nil => intro n; rfl
  | cons c rest ih => intro n; simp [newStories, ih]

theorem newStories_id_lt : ∀ (cards : List Card) (n : Nat), ∀ st ∈ newStories cards n,
    n ≤ st.id ∧ st.id < n + cards.length := by
  intro cards
  induction cards with
  | nil => intro n st hst; simp [newStories] at hst
  | cons c rest ih =>
    intro n st hst
    rcases List.mem_cons.mp hst with h | h
    · subst h; simp
    · have := ih (n + 1) st h
      simp only [List.length_cons]
      omega

theorem importLoop_ok (snapshot : List ChStory) (opts : ClubhouseOptions) (um : UserMap)
    (now : GoTime) :
    ∀ (cards : List Card) (s : ChState),
      (∀ c ∈ cards, ∀ cm ∈ c.comments, cm.createdAt ≠ none) →
      (∀ y ∈ snapshot, y.id < s.nextStoryId) →
      ∃ s' : ChState,
        importLoop snapshot opts um now cards s = .ok s'
        ∧ s'.stories =
            s.stories.filter (fun st =>
              !(cards.any (fun c => snapshot.any (fun y =>
                  (y.name == c.name) && (st.id == y.id)))))
            ++ newStories cards s.nextStoryId
        ∧ s'.nextStoryId = s.nextStoryId + cards.length := by
  intro cards
  induction cards with
  | nil =>
    intro s _ _
    exact ⟨s, rfl, by simp [newStories], by simp⟩
  | cons c rest ih =>
    intro s hc hsnap
    have hcc : ∀ cm ∈ c.comments, cm.createdAt ≠ none :=
      hc c (List.mem_cons_self c rest)
    obtain ⟨req, hreq, hname⟩ :=
      buildClubhouseStory_ok c opts um now (deleteMatchingStories snapshot opts c s) hcc
    have hdel := deleteMatchingStories_eq snapshot opts c s
    have hlf := buildLinkFiles_stories c opts (deleteMatchingStories snapshot opts c s)
    -- the state after creating the story for c
    have hstep : importLoop snapshot opts um now (c :: rest) s =
        importLoop snapshot opts um now rest
          (createStory req (buildLinkFiles c opts
            (deleteMatchingStories snapshot opts c s)).2).2 := by
      rw [importLoop, hreq]
    set s2 := (buildLinkFiles c opts (deleteMatchingStories snapshot opts c s)).2 with hs2
    have hs2stories : s2.stories =
        s.stories.filter (fun st =>
          !(snapshot.any (fun y => (y.name == c.name) && (st.id == y.id)))) := by
      rw [hlf.1, hdel]
    have hs2nid : s2.nextStoryId = s.nextStoryId := by
      rw [hlf.2, hdel]
    have hsnap3 : ∀ y ∈ snapshot, y.id < (createStory req s2).2.nextStoryId := by
      intro y hy
      simp only [createStory, hs2nid]
      exact Nat.lt_succ_of_lt (hsnap y hy)
    have hcrest : ∀ d ∈ rest, ∀ cm ∈ d.comments, cm.createdAt ≠ none :=
      fun d hd => hc d (List.mem_cons_of_mem c hd)
    obtain ⟨s', hs', hstories, hnid⟩ := ih (createStory req s2).2 hcrest hsnap3
    refine ⟨s', by rw [hstep]; exact hs', ?_, ?_⟩
    · rw [hstories]
      have hcreate : (createStory req s2).2.stories =
          s2.stories ++ [⟨s.nextStoryId, c.name⟩] := by
        simp [createStory, hs2nid, hname]
      rw [hcreate, List.filter_append, hs2stories, List.filter_filter]
      have hnew : (List.filter (fun st =>
          !(rest.any (fun d => snapshot.any (fun y =>
              (y.name == d.name) && (st.id == y.id)))))
          [⟨s.nextStoryId, c.name⟩] : List ChStory) = [⟨s.nextStoryId, c.name⟩] := by
        simp only [List.filter_cons, List.filter_nil]
        rw [if_pos]
        simp only [Bool.not_eq_eq_eq_not, Bool.not_true, Bool.not_false]
        rw [List.any_eq_false]
        intro d _
        simp only [Bool.not_eq_true]
        rw [List.any_eq_false]
        intro y hy
        have : y.id ≠ s.nextStoryId := Nat.ne_of_lt (hsnap y hy)
        simp [Nat.ne_of_lt (hsnap y hy), this, Ne.symm this]
      rw [hnew]
      have hpred : ∀ st : ChStory,
          ((!(rest.any (fun d => snapshot.any (fun y =>
              (y.name == d.name) && (st.id == y.id))))) &&
           (!(snapshot.any (fun y => (y.name == c.name) && (st.id == y.id)))))
          = !((c :: rest).any (fun d => snapshot.any (fun y =>
              (y.name == d.name) && (st.id == y.id)))) := by
        intro st
        simp [List.any_cons, Bool.not_or, Bool.and_comm]
      have hfe : (fun (st : ChStory) => (!(rest.any (fun d => snapshot.any (fun y =>
              (y.name == d.name) && (st.id == y.id))))) &&
           (!(snapshot.any (fun y => (y.name == c.name) && (st.id == y.id)))))
          = (fun (st : ChStory) => !((c :: rest).any (fun d => snapshot.any (fun y =>
              (y.name == d.name) && (st.id == y.id))))) := funext hpred
      rw [hfe]
      have hc2 : (createStory req s2).2.nextStoryId = s.nextStoryId + 1 := by
        simp [createStory, hs2nid]
      rw [hc2]
      simp [newStories, List.append_assoc]
    · rw [hnid]
      simp only [createStory, hs2nid, List.length_cons]
      omega

/-- Counterexample to claim C1 as stated: two distinct cards that share the
name X.  The duplicate check of each card consults only the listing taken
once at the start of the run, so within one run the second card does not
delete the story just created for the first, and after running the import
twice from an empty project two records named X remain, not one per unique
card name. -/
theorem c1_import_idempotent_counterexample :
    Option.map (fun s2 : ChState => s2.stories.countP (fun st => st.name == "X"))
      ((ImportCardsIntoClubhouse [cardX1, cardX2] optsNoLink umId now0 chEmpty).toOption.bind
        (fun s1 => (ImportCardsIntoClubhouse [cardX1, cardX2] optsNoLink umId now0 s1).toOption))
      = some 2 := by decide

/-- Claim C1, amended: provided the cards of the batch bear pairwise
distinct names (the counterexample shows one run already creates one record
per card, not per name, when names collide inside the batch) and every
comment carries a created-at (so story building does not panic), a run from
any well-formed server state deletes every pre-run story named like a card
before creating that card's story, and leaves exactly one record per card
name; the final state is well formed again, so running the import twice
also leaves exactly one record per unique card name. -/
theorem c1_import_idempotent_of_distinct_names :
    ∀ (cards : List Card) (opts : ClubhouseOptions) (um : UserMap) (now : GoTime)
      (s : ChState),
      (cards.map Card.name).Nodup →
      (∀ c ∈ cards, ∀ cm ∈ c.comments, cm.createdAt ≠ none) →
      (∀ st ∈ s.stories, st.id < s.nextStoryId) →
      ∃ s' : ChState,
        ImportCardsIntoClubhouse cards opts um now s = .ok s'
        ∧ (∀ st ∈ s'.stories, st.id < s'.nextStoryId)
        ∧ ∀ c ∈ cards, s'.stories.countP (fun st => st.name == c.name) = 1 := by
  intro cards opts um now s hn hc hwf
  obtain ⟨s', hs', hstories, hnid⟩ := importLoop_ok s.stories opts um now cards s hc hwf
  refine ⟨s', hs', ?_, ?_⟩
  · intro st hst
    rw [hstories] at hst
    rcases List.mem_append.mp hst with h | h
    · have := hwf st (List.mem_filter.mp h).1
      omega
    · have := newStories_id_lt cards s.nextStoryId st h
      omega
  · intro c hcmem
    rw [hstories, List.countP_append]
    have hfilter : (s.stories.filter (fun st =>
        !(cards.any (fun d => s.stories.any (fun y =>
            (y.name == d.name) && (st.id == y.id)))))).countP
        (fun st => st.name == c.name) = 0 := by
      rw [List.countP_eq_zero]
      intro a ha
      obtain ⟨hmem, hkeep⟩ := List.mem_filter.mp ha
      intro hname
      have hname' : a.name = c.name := by simpa using hname
      have : cards.any (fun d => s.stories.any (fun y =>
          (y.name == d.name) && (a.id == y.id))) = true := by
        rw [List.any_eq_true]
        refine ⟨c, hcmem, ?_⟩
        rw [List.any_eq_true]
        exact ⟨a, hmem, by simp [hname']⟩
      rw [this] at hkeep
      simp at hkeep
    rw [hfilter]
    have hcount : (newStories cards s.nextStoryId).countP (fun st => st.name == c.name)
        = (cards.map Card.name).count c.name := by
      have h1 : (newStories cards s.nextStoryId).countP (fun st => st.name == c.name)
          = ((newStories cards s.nextStoryId).map ChStory.name).countP
              (fun nm => nm == c.name) := by
        rw [List.countP_map]
        rfl
      rw [h1, newStories_names]
      rfl
    rw [hcount, List.count_eq_one_of_mem hn (List.mem_map_of_mem Card.name hcmem)]

/-- Witness for C1 (amended): two cards with distinct names imported into
an empty project. -/
theorem c1_import_idempotent_witness :
    ∃ s' : ChState,
      ImportCardsIntoClubhouse [cardA, cardB] optsNoLink umId now0 chEmpty = .ok s'
      ∧ (∀ st ∈ s'.stories, st.id < s'.nextStoryId)
      ∧ ∀ c ∈ [cardA, cardB], s'.stories.countP (fun st => st.name == c.name) = 1 :=
  c1_import_idempotent_of_distinct_names [cardA, cardB] optsNoLink umId now0 chEmpty
    (by decide) (by decide) (by decide)

/-- Witness for C8 (amended): applied to a concrete card with one dated
comment and the back-link option enabled. -/
theorem c8_request_fields_witness :
    ∃ (req : CreateStory) (s' : ChState),
      buildClubhouseStory cardDated optsLink umId now0 chEmpty = .ok (req, s')
      ∧ req.requestedById = umId.getCreator cardDated.idCreator
      ∧ req.ownerIds = cardDated.idOwners.map umId.getCreator
      ∧ req.comments =
          cardDated.comments.map (fun cm =>
            ⟨cm.createdAt.getD goTimeZero, umId.getCreator cm.idCreator, cm.text⟩)
          ++ (if optsLink.addCommentWithTrelloLink then
                [⟨now0, "", "Card imported from Trello: " ++ cardDated.shortURL⟩]
              else []) :=
  c8_request_fields_of_dated_comments cardDated optsLink umId now0 chEmpty (by decide)

/-! ## Shared-link reuse and the attachment map (claims C2 and C10)

In the source, getSharedLinks and createShareLink declare named results
(out, err) that are never assigned: the POST performed by the call helper
is issued and its decoded response thrown away, so both functions return
the nil pointer with a nil error whatever the API answers.  The relocation
loop then evaluates len(links.Links) on that nil pointer. -/

/-- Claim C2 concerns a code bug: the Relocator issues the query for
existing shared links but can never reuse its result, because getSharedLinks
returns nil unconditionally; for every environment (in particular one whose
sharing API already holds a link for the uploaded path) and every card with
at least one attachment, the loop dereferences the nil response on its
first iteration and the process panics, producing no URL at all. -/
theorem c2_relocator_never_reuses_links :
    ∀ (env : DropboxEnv) (card : TrelloCard),
      card.attachments ≠ [] →
      downloadCardAttachmentsUploadToDropbox env card
        = .error .nilPointerDereference := by
  intro env card h
  unfold downloadCardAttachmentsUploadToDropbox
  cases hatt : card.attachments with
  | nil => exact absurd hatt h
  | cons a rest => rfl

/-- Witness for C2: the environment envReuse already holds a shared link
for every path, yet relocating a card with one attachment panics instead of
reusing that link. -/
theorem c2_relocator_never_reuses_links_witness :
    downloadCardAttachmentsUploadToDropbox envReuse trelloCardOneAtt
      = .error .nilPointerDereference :=
  c2_relocator_never_reuses_links envReuse trelloCardOneAtt (by decide)

/-- Claim C10 concerns the same code bug: the attachment map is keyed by
sanitized filename, and the two attachment names of trelloCardTwoAtt do
sanitize to the same key (first conjunct); but contrary to the claimed
overwrite behavior no attachment map is produced at all, because the
relocation loop panics on the first attachment before any entry is stored
(second conjunct). -/
theorem c10_attachment_map_keyed_by_name :
    safeFileName "a b.png" = safeFileName "a#b.png"
    ∧ downloadCardAttachmentsUploadToDropbox envReuse trelloCardTwoAtt
        = .error .nilPointerDereference :=
  ⟨by simp [safeFileName, sanitizeChars, List.dropWhile, isSafeFileChar], rfl⟩

end TrelloClubhouse
